import Mathlib

/-!
Verification development for the football_rank repository.

The definitions below are shallow embeddings of the Python source:
* `src/match_ranking.py` — `EloAlgorithm` (Elo ratings over a dict keyed by team name);
* `src/main_window.py` — the skill-score and stability computations of
  `load_openskill_rankings`;
* `src/match_parser.py` — `MatchParser.parse_and_store` over a SQLite table with
  `api_id INTEGER PRIMARY KEY` and `INSERT OR IGNORE`;
* `src/match_data.py` — `MatchDataManager.get_matches` / `_filter_mock_data`;
* `src/fetch_worker.py` — `FetchWorker.run` and its retry configuration;
* `src/league_mapper.py`, `src/team.py`, `src/team_manager.py` — the team registry.

Python dicts are modelled as association lists with unique-key update semantics
(updating an existing key keeps its position, a new key is appended), float
arithmetic is modelled over `ℝ` (for the Elo formula, which uses `10 ^ x`) or
over `ℚ` (for the display computations), and fallible code is modelled in
`Except`.
-/

namespace FootballRank

/-! ## Python dict model (association lists) -/

/-- Lookup in a Python-dict-like association list: value of the first
(and, for genuine dicts, only) entry with the given key. -/
def dictLookup {α : Type} : List (String × α) → String → Option α
  | [], _ => none
  | p :: rest, k => if p.1 = k then some p.2 else dictLookup rest k

/-- Python dict assignment `d[k] = v`: replace the value of an existing key in
place, otherwise append the new entry at the end. -/
def dictSet {α : Type} : List (String × α) → String → α → List (String × α)
  | [], k, v => [(k, v)]
  | p :: rest, k, v => if p.1 = k then (k, v) :: rest else p :: dictSet rest k v

/-- Sum of all values stored in the dict. -/
def dictSum : List (String × ℝ) → ℝ
  | [] => 0
  | p :: rest => p.2 + dictSum rest

theorem dictLookup_dictSet_self {α : Type} (d : List (String × α)) (k : String) (v : α) :
    dictLookup (dictSet d k v) k = some v := by
  induction d with
  | nil => simp [dictSet, dictLookup]
  | cons p rest ih =>
    by_cases h : p.1 = k
    · simp [dictSet, dictLookup, h]
    · simp [dictSet, dictLookup, h, ih]

theorem dictLookup_dictSet_other {α : Type} (d : List (String × α)) (k k' : String) (v : α)
    (hne : k' ≠ k) : dictLookup (dictSet d k v) k' = dictLookup d k' := by
  have hkk : ¬ k = k' := fun h => hne h.symm
  induction d with
  | nil => simp [dictSet, dictLookup, hkk]
  | cons p rest ih =>
    by_cases h : p.1 = k
    · simp [dictSet, dictLookup, h, hkk]
    · by_cases h' : p.1 = k' <;> simp [dictSet, dictLookup, h, h', ih, hne]

theorem dictSum_dictSet (d : List (String × ℝ)) (k : String) (v w : ℝ)
    (hk : dictLookup d k = some w) :
    dictSum (dictSet d k v) = dictSum d - w + v := by
  induction d with
  | nil => simp [dictLookup] at hk
  | cons p rest ih =>
    by_cases h : p.1 = k
    · simp only [dictLookup, h, if_pos, Option.some.injEq] at hk
      simp [dictSet, dictSum, h, hk]; ring
    · simp only [dictLookup, h, if_neg, not_false_iff] at hk
      simp [dictSet, dictSum, h, ih hk]; ring

/-! ## `src/match_ranking.py` — `EloAlgorithm`

State of an `EloAlgorithm` instance: the constructor fields `initial_rating`,
`k_factor` and the `teams` dict keyed by team name. -/

structure EloAlgorithm where
  initial_rating : ℝ
  k_factor : ℝ
  teams : List (String × ℝ)

/-- `EloAlgorithm.__init__` with its default arguments
`initial_rating=1500, k_factor=30` and an empty-or-given teams dict. -/
noncomputable def eloInit (teams : List (String × ℝ)) : EloAlgorithm :=
  { initial_rating := 1500, k_factor := 30, teams := teams }

theorem eloInit_teams (teams : List (String × ℝ)) : (eloInit teams).teams = teams := rfl

theorem eloInit_initial_rating (teams : List (String × ℝ)) :
    (eloInit teams).initial_rating = 1500 := rfl

theorem eloInit_k_factor (teams : List (String × ℝ)) : (eloInit teams).k_factor = 30 := rfl

namespace EloAlgorithm

/-- `EloAlgorithm.expected_result(rating_a, rating_b)`:
`1 / (1 + 10 ** ((rating_b - rating_a) / 400))`. -/
noncomputable def expected_result (rating_a rating_b : ℝ) : ℝ :=
  1 / (1 + (10 : ℝ) ^ ((rating_b - rating_a) / 400))

/-- `EloAlgorithm.update_elo(rating, expected, actual)`:
`rating + self.k_factor * (actual - expected)`. -/
def update_elo (s : EloAlgorithm) (rating expected actual : ℝ) : ℝ :=
  rating + s.k_factor * (actual - expected)

/-- `EloAlgorithm.get_team_rating(team_name)`: initialize an absent team to
`self.initial_rating`, then return the stored rating; returns the (possibly
updated) state together with the rating. -/
def get_team_rating (s : EloAlgorithm) (team_name : String) : EloAlgorithm × ℝ :=
  match dictLookup s.teams team_name with
  | some r => (s, r)
  | none => ({ s with teams := dictSet s.teams team_name s.initial_rating }, s.initial_rating)

/-- The actual-outcome pair of `process_match`: `(1,0)` if the home side scored
more, `(0,1)` if it scored less, `(0.5, 0.5)` on equal goals. -/
noncomputable def actualPair (home_score away_score : ℤ) : ℝ × ℝ :=
  if home_score > away_score then (1, 0)
  else if home_score < away_score then (0, 1)
  else (1/2, 1/2)

/-- `EloAlgorithm.process_match(home_team, away_team, home_score, away_score)`:
look up (or default-initialize) both ratings, compute the expected and actual
results, update both ratings with `update_elo` and store them back. -/
noncomputable def process_match (s : EloAlgorithm)
    (home_team away_team : String) (home_score away_score : ℤ) : EloAlgorithm :=
  let p1 := get_team_rating s home_team
  let s1 := p1.1
  let home_rating := p1.2
  let p2 := get_team_rating s1 away_team
  let s2 := p2.1
  let away_rating := p2.2
  let exp_home := expected_result home_rating away_rating
  let exp_away := 1 - exp_home
  let a := actualPair home_score away_score
  let new_home_rating := update_elo s2 home_rating exp_home a.1
  let new_away_rating := update_elo s2 away_rating exp_away a.2
  { s2 with teams :=
      dictSet (dictSet s2.teams home_team new_home_rating) away_team new_away_rating }

theorem get_team_rating_snd (s : EloAlgorithm) (n : String) :
    (get_team_rating s n).2 = (dictLookup s.teams n).getD s.initial_rating := by
  unfold get_team_rating
  cases h : dictLookup s.teams n <;> simp [h]

theorem get_team_rating_lookup (s : EloAlgorithm) (n m : String) :
    dictLookup (get_team_rating s n).1.teams m =
      if m = n then some ((dictLookup s.teams n).getD s.initial_rating)
      else dictLookup s.teams m := by
  unfold get_team_rating
  cases h : dictLookup s.teams n with
  | some r =>
    by_cases hm : m = n
    · subst hm; simp [h]
    · simp [h, hm]
  | none =>
    by_cases hm : m = n
    · subst hm; simp [h, dictLookup_dictSet_self]
    · simp [h, hm, dictLookup_dictSet_other _ _ _ _ hm]

theorem get_team_rating_initial_rating (s : EloAlgorithm) (n : String) :
    (get_team_rating s n).1.initial_rating = s.initial_rating := by
  unfold get_team_rating
  cases dictLookup s.teams n <;> rfl

theorem get_team_rating_k_factor (s : EloAlgorithm) (n : String) :
    (get_team_rating s n).1.k_factor = s.k_factor := by
  unfold get_team_rating
  cases dictLookup s.teams n <;> rfl

/-- The two components of `actualPair` always add up to `1`. -/
theorem actualPair_sum (hg ag : ℤ) : (actualPair hg ag).1 + (actualPair hg ag).2 = 1 := by
  unfold actualPair
  split_ifs <;> norm_num

/-- Characterization of the `teams` dict after `process_match`: the home and
away entries hold the updated ratings, every other entry is untouched. -/
theorem process_match_lookup (s : EloAlgorithm) (home away : String) (hg ag : ℤ)
    (hne : home ≠ away) :
    dictLookup (process_match s home away hg ag).teams home =
      some ((dictLookup s.teams home).getD s.initial_rating +
        s.k_factor * ((actualPair hg ag).1 -
          expected_result ((dictLookup s.teams home).getD s.initial_rating)
            ((dictLookup s.teams away).getD s.initial_rating))) ∧
    dictLookup (process_match s home away hg ag).teams away =
      some ((dictLookup s.teams away).getD s.initial_rating +
        s.k_factor * ((actualPair hg ag).2 -
          (1 - expected_result ((dictLookup s.teams home).getD s.initial_rating)
            ((dictLookup s.teams away).getD s.initial_rating)))) ∧
    ∀ m, m ≠ home → m ≠ away →
      dictLookup (process_match s home away hg ag).teams m = dictLookup s.teams m := by
  have hne' : away ≠ home := fun h => hne h.symm
  unfold process_match update_elo
  simp only [get_team_rating_snd, get_team_rating_lookup, get_team_rating_initial_rating,
    get_team_rating_k_factor, if_pos rfl, if_neg hne']
  refine ⟨?_, ?_, ?_⟩
  · rw [dictLookup_dictSet_other _ _ _ _ hne, dictLookup_dictSet_self]
  · rw [dictLookup_dictSet_self]
  · intro m hm1 hm2
    rw [dictLookup_dictSet_other _ _ _ _ hm2, dictLookup_dictSet_other _ _ _ _ hm1,
      get_team_rating_lookup, if_neg hm2, get_team_rating_lookup, if_neg hm1]

/-- `process_match` leaves the `k_factor` and `initial_rating` fields unchanged. -/
theorem process_match_fields (s : EloAlgorithm) (home away : String) (hg ag : ℤ) :
    (process_match s home away hg ag).k_factor = s.k_factor ∧
    (process_match s home away hg ag).initial_rating = s.initial_rating := by
  unfold process_match
  simp [get_team_rating_k_factor, get_team_rating_initial_rating]

/-- `process_match` does not change the sum of all stored ratings, relative to
the state in which both participating teams have been (default-)initialized. -/
theorem process_match_dictSum (s : EloAlgorithm) (home away : String) (hg ag : ℤ)
    (hne : home ≠ away) :
    dictSum (process_match s home away hg ag).teams =
      dictSum (get_team_rating (get_team_rating s home).1 away).1.teams := by
  have hne' : away ≠ home := fun h => hne h.symm
  have hrh : dictLookup (get_team_rating (get_team_rating s home).1 away).1.teams home
      = some ((get_team_rating s home).2) := by
    rw [get_team_rating_lookup, if_neg hne, get_team_rating_lookup, if_pos rfl,
      get_team_rating_snd]
  have hra : dictLookup (get_team_rating (get_team_rating s home).1 away).1.teams away
      = some ((get_team_rating (get_team_rating s home).1 away).2) := by
    rw [get_team_rating_lookup, if_pos rfl, get_team_rating_snd]
  have hsum := actualPair_sum hg ag
  simp only [process_match, update_elo]
  rw [dictSum_dictSet _ _ _ _ (by rw [dictLookup_dictSet_other _ _ _ _ hne']; exact hra),
    dictSum_dictSet _ _ _ _ hrh]
  linear_combination (get_team_rating (get_team_rating s home).1 away).1.k_factor * hsum

end EloAlgorithm

/-- **C1.** `EloAlgorithm.process_match(home, away, homeGoals, awayGoals)` with
`home ≠ away`, at the constructor defaults (`initial_rating=1500, k_factor=30`),
where a team absent from the state counts at rating `1500`: the expected home
score equals `1 / (1 + 10 ^ ((ratingAway - ratingHome) / 400))`, the expected
away score is `1` minus it, the actual outcome pair is `(1,0)` when
`homeGoals > awayGoals`, `(0,1)` when `homeGoals < awayGoals`, `(0.5, 0.5)` on
equal goals, and each team's new stored rating (keyed by its name) is its old
rating plus `30 * (actual - expected)`. -/
theorem C1_process_match_elo_update (teams : List (String × ℝ)) (home away : String)
    (hg ag : ℤ) (hne : home ≠ away) :
    (let ratingHome := (dictLookup teams home).getD 1500
     let ratingAway := (dictLookup teams away).getD 1500
     let expectedHome := 1 / (1 + (10 : ℝ) ^ ((ratingAway - ratingHome) / 400))
     let actual : ℝ × ℝ :=
       if hg > ag then (1, 0) else if hg < ag then (0, 1) else (1/2, 1/2)
     dictLookup (EloAlgorithm.process_match (eloInit teams) home away hg ag).teams home
         = some (ratingHome + 30 * (actual.1 - expectedHome)) ∧
       dictLookup (EloAlgorithm.process_match (eloInit teams) home away hg ag).teams away
         = some (ratingAway + 30 * (actual.2 - (1 - expectedHome)))) := by
  intro ratingHome ratingAway expectedHome actual
  have h := EloAlgorithm.process_match_lookup (eloInit teams) home away hg ag hne
  simp only [eloInit] at h
  exact ⟨h.1, h.2.1⟩

theorem C1_process_match_elo_update_witness :
    (("Arsenal" : String) ≠ "Chelsea") ∧
      (let ratingHome := (dictLookup ([] : List (String × ℝ)) "Arsenal").getD 1500
       let ratingAway := (dictLookup ([] : List (String × ℝ)) "Chelsea").getD 1500
       let expectedHome := 1 / (1 + (10 : ℝ) ^ ((ratingAway - ratingHome) / 400))
       let actual : ℝ × ℝ :=
         if (2 : ℤ) > 1 then (1, 0) else if (2 : ℤ) < 1 then (0, 1) else (1/2, 1/2)
       dictLookup (EloAlgorithm.process_match (eloInit []) "Arsenal" "Chelsea" 2 1).teams
           "Arsenal" = some (ratingHome + 30 * (actual.1 - expectedHome)) ∧
         dictLookup (EloAlgorithm.process_match (eloInit []) "Arsenal" "Chelsea" 2 1).teams
           "Chelsea" = some (ratingAway + 30 * (actual.2 - (1 - expectedHome)))) :=
  ⟨by decide, C1_process_match_elo_update [] "Arsenal" "Chelsea" 2 1 (by decide)⟩

/-- **C9.** For `process_match` on distinct team names, once both teams are
present (absent teams counted at the initial `1500`), the home and away rating
changes cancel exactly, and the sum of all stored ratings is unchanged by the
match (relative to the state with both teams initialized). -/
theorem C9_process_match_preserves_total (teams : List (String × ℝ)) (home away : String)
    (hg ag : ℤ) (hne : home ≠ away) :
    (let s := eloInit teams
     let s2 := (EloAlgorithm.get_team_rating (EloAlgorithm.get_team_rating s home).1 away).1
     let s' := EloAlgorithm.process_match s home away hg ag
     let ratingHome := (dictLookup teams home).getD 1500
     let ratingAway := (dictLookup teams away).getD 1500
     ((dictLookup s'.teams home).getD 0 - ratingHome)
         = -((dictLookup s'.teams away).getD 0 - ratingAway) ∧
       dictSum s'.teams = dictSum s2.teams) := by
  intro s s2 s' ratingHome ratingAway
  have h := EloAlgorithm.process_match_lookup (eloInit teams) home away hg ag hne
  have hsum := EloAlgorithm.actualPair_sum hg ag
  refine ⟨?_, EloAlgorithm.process_match_dictSum (eloInit teams) home away hg ag hne⟩
  show (dictLookup (EloAlgorithm.process_match (eloInit teams) home away hg ag).teams
        home).getD 0 - (dictLookup teams home).getD 1500
      = -((dictLookup (EloAlgorithm.process_match (eloInit teams) home away hg ag).teams
        away).getD 0 - (dictLookup teams away).getD 1500)
  rw [h.1, h.2.1]
  simp only [Option.getD_some, eloInit]
  linear_combination (30 : ℝ) * hsum

theorem C9_process_match_preserves_total_witness :
    (("Leeds" : String) ≠ "Derby") ∧
      (let s := eloInit [("Leeds", 1650)]
       let s2 := (EloAlgorithm.get_team_rating (EloAlgorithm.get_team_rating s "Leeds").1
         "Derby").1
       let s' := EloAlgorithm.process_match s "Leeds" "Derby" 1 1
       let ratingHome := (dictLookup [("Leeds", (1650 : ℝ))] "Leeds").getD 1500
       let ratingAway := (dictLookup [("Leeds", (1650 : ℝ))] "Derby").getD 1500
       ((dictLookup s'.teams "Leeds").getD 0 - ratingHome)
           = -((dictLookup s'.teams "Derby").getD 0 - ratingAway) ∧
         dictSum s'.teams = dictSum s2.teams) :=
  ⟨by decide, C9_process_match_preserves_total [("Leeds", 1650)] "Leeds" "Derby" 1 1 (by decide)⟩

/-! ### Analysis of the Elo draw update -/

namespace EloAlgorithm

/-- Swapping the two teams complements the expected score. -/
theorem expected_result_complement (a b : ℝ) :
    expected_result b a = 1 - expected_result a b := by
  unfold expected_result
  have hswap : (a - b) / 400 = -((b - a) / 400) := by ring
  rw [hswap, Real.rpow_neg (by norm_num : (0 : ℝ) ≤ 10)]
  set t := (10 : ℝ) ^ ((b - a) / 400) with htdef
  have ht0 : 0 < t := Real.rpow_pos_of_pos (by norm_num) _
  clear_value t
  have h2 : t ≠ 0 := ne_of_gt ht0
  have h1 : (1 : ℝ) + t ≠ 0 := by positivity
  rw [inv_eq_one_div, one_add_div h2, one_div_div, add_comm t 1, eq_sub_iff_add_eq,
    div_add_div_same, add_comm t 1]
  exact div_self h1

/-- For the stronger team the expected score exceeds `1/2`, and the draw
correction `60 * (e - 1/2)` stays strictly below twice the rating gap. -/
theorem expected_result_gap (a b : ℝ) (hd : 0 < a - b) :
    1/2 < expected_result a b ∧ 60 * (expected_result a b - 1/2) < 2 * (a - b) := by
  have hexp_neg : (b - a) / 400 < 0 := div_neg_of_neg_of_pos (by linarith) (by norm_num)
  set t := (10 : ℝ) ^ ((b - a) / 400) with htdef
  have ht0 : 0 < t := Real.rpow_pos_of_pos (by norm_num) _
  have ht1 : t < 1 := Real.rpow_lt_one_of_one_lt_of_neg (by norm_num) hexp_neg
  have h1t : (0 : ℝ) < 1 + t := by linarith
  have hlog : Real.log 10 ≤ 9 := by
    have h := Real.log_le_sub_one_of_pos (show (0 : ℝ) < 10 by norm_num)
    linarith
  have htexp : t = Real.exp (Real.log 10 * ((b - a) / 400)) :=
    Real.rpow_def_of_pos (by norm_num) _
  have hbound : 1 - t ≤ Real.log 10 * ((a - b) / 400) := by
    have h := Real.add_one_le_exp (Real.log 10 * ((b - a) / 400))
    rw [← htexp] at h
    have hflip : Real.log 10 * ((a - b) / 400) = -(Real.log 10 * ((b - a) / 400)) := by ring
    linarith
  have hb2 : 1 - t ≤ 9 * (a - b) / 400 := by
    have hd400 : 0 < (a - b) / 400 := by positivity
    have hlogpos : 0 < Real.log 10 := Real.log_pos (by norm_num)
    nlinarith
  have hexpand : expected_result a b = 1 / (1 + t) := by
    unfold expected_result
    rw [htdef]
  constructor
  · rw [hexpand, lt_div_iff₀ h1t]
    linarith
  · have k1 : 30 * (1 - t) ≤ 270 * (a - b) / 400 := by linarith
    have k2 : 270 * (a - b) / 400 < 2 * (a - b) := by linarith
    have k3 : 2 * (a - b) ≤ 2 * (a - b) * (1 + t) := by nlinarith
    have hrw : 60 * (expected_result a b - 1/2) = 30 * (1 - t) / (1 + t) := by
      rw [hexpand]
      field_simp
      ring
    rw [hrw, div_lt_iff₀ h1t]
    nlinarith

end EloAlgorithm

/-- **C8.** A draw (`homeGoals = awayGoals`) processed by `process_match` on two
distinct teams whose current ratings differ pulls the two stored ratings
strictly closer together, and each team's rating change has magnitude at most
`30` times the gap between `0.5` and that team's expected score. -/
theorem C8_draw_pulls_ratings_together (teams : List (String × ℝ)) (home away : String)
    (rH rA : ℝ) (hg ag : ℤ) (hne : home ≠ away)
    (hH : dictLookup teams home = some rH) (hA : dictLookup teams away = some rA)
    (hr : rH ≠ rA) (hdraw : hg = ag) :
    let s' := EloAlgorithm.process_match (eloInit teams) home away hg ag
    let newH := (dictLookup s'.teams home).getD 0
    let newA := (dictLookup s'.teams away).getD 0
    let eH := EloAlgorithm.expected_result rH rA
    let eA := 1 - eH
    |newH - newA| < |rH - rA| ∧
      |newH - rH| ≤ 30 * |1/2 - eH| ∧ |newA - rA| ≤ 30 * |1/2 - eA| := by
  subst hdraw
  intro s' newH newA eH eA
  have h := EloAlgorithm.process_match_lookup (eloInit teams) home away hg hg hne
  have hpair : EloAlgorithm.actualPair hg hg = (1/2, 1/2) := by
    unfold EloAlgorithm.actualPair
    simp [lt_irrefl]
  rw [hpair] at h
  simp only [eloInit_teams, eloInit_initial_rating, eloInit_k_factor, hH, hA,
    Option.getD_some] at h
  have hnewH : newH = rH + 30 * (1/2 - eH) := by
    show (dictLookup (EloAlgorithm.process_match (eloInit teams) home away hg hg).teams
      home).getD 0 = rH + 30 * (1/2 - EloAlgorithm.expected_result rH rA)
    rw [h.1]
    rfl
  have hnewA : newA = rA + 30 * (1/2 - (1 - eH)) := by
    show (dictLookup (EloAlgorithm.process_match (eloInit teams) home away hg hg).teams
      away).getD 0 = rA + 30 * (1/2 - (1 - EloAlgorithm.expected_result rH rA))
    rw [h.2.1]
    simp only [Option.getD_some]
  refine ⟨?_, ?_, ?_⟩
  · rcases lt_or_gt_of_ne hr with hlt | hgt
    · have hc : EloAlgorithm.expected_result rA rH = 1 - eH :=
        EloAlgorithm.expected_result_complement rH rA
      obtain ⟨he1, he2⟩ := EloAlgorithm.expected_result_gap rA rH (by linarith)
      rw [hc] at he1 he2
      rw [hnewH, hnewA, abs_of_neg (show rH - rA < 0 by linarith), abs_lt]
      constructor <;> linarith
    · obtain ⟨he1, he2⟩ := EloAlgorithm.expected_result_gap rH rA (by linarith)
      have he1' : 1/2 < eH := he1
      have he2' : 60 * (eH - 1/2) < 2 * (rH - rA) := he2
      rw [hnewH, hnewA, abs_of_pos (show 0 < rH - rA by linarith), abs_lt]
      constructor <;> linarith
  · rw [hnewH, show rH + 30 * (1/2 - eH) - rH = 30 * (1/2 - eH) by ring, abs_mul,
      abs_of_nonneg (show (0:ℝ) ≤ 30 by norm_num)]
  · rw [hnewA, show rA + 30 * (1/2 - (1 - eH)) - rA = 30 * (1/2 - (1 - eH)) by ring, abs_mul,
      abs_of_nonneg (show (0:ℝ) ≤ 30 by norm_num)]

theorem C8_draw_pulls_ratings_together_witness :
    (("Lyon" : String) ≠ "Metz") ∧
      dictLookup [("Lyon", (1600 : ℝ)), ("Metz", 1480)] "Lyon" = some 1600 ∧
      dictLookup [("Lyon", (1600 : ℝ)), ("Metz", 1480)] "Metz" = some 1480 ∧
      ((1600 : ℝ) ≠ 1480) ∧ ((2 : ℤ) = 2) ∧
      (let s' := EloAlgorithm.process_match
         (eloInit [("Lyon", (1600 : ℝ)), ("Metz", 1480)]) "Lyon" "Metz" 2 2
       let newH := (dictLookup s'.teams "Lyon").getD 0
       let newA := (dictLookup s'.teams "Metz").getD 0
       let eH := EloAlgorithm.expected_result 1600 1480
       let eA := 1 - eH
       |newH - newA| < |(1600 : ℝ) - 1480| ∧
         |newH - (1600 : ℝ)| ≤ 30 * |1/2 - eH| ∧ |newA - (1480 : ℝ)| ≤ 30 * |1/2 - eA|) :=
  ⟨by decide, rfl, rfl, by norm_num, rfl,
    C8_draw_pulls_ratings_together [("Lyon", 1600), ("Metz", 1480)] "Lyon" "Metz"
      1600 1480 2 2 (by decide) rfl rfl (by norm_num) rfl⟩

/-! ## Python numeric primitives used by the display code (`ℚ` model) -/

/-- Python `int(x)` on a number: truncation toward zero. -/
def pyInt (q : ℚ) : ℤ := if 0 ≤ q then ⌊q⌋ else ⌈q⌉

/-- Python 3 `round(x)` to an integer: round half to even (banker's rounding). -/
def pyRound (q : ℚ) : ℤ :=
  if q - ⌊q⌋ < 1/2 then ⌊q⌋
  else if 1/2 < q - ⌊q⌋ then ⌊q⌋ + 1
  else if 2 ∣ ⌊q⌋ then ⌊q⌋ else ⌊q⌋ + 1

/-! ## `src/main_window.py` — `load_openskill_rankings` display computations -/

/-- `min_sigma = 1.5` from `load_openskill_rankings`. -/
def min_sigma : ℚ := 3/2

/-- `score = int(mu_value * 25)` from `load_openskill_rankings`. -/
def openskillScore (mu_value : ℚ) : ℤ := pyInt (mu_value * 25)

/-- `stability_value = (1 / sigma_value) / (1 / min_sigma) * 100` from
`load_openskill_rankings`. -/
def stability_value (sigma_value : ℚ) : ℚ :=
  (1 / sigma_value) / (1 / min_sigma) * 100

/-- `round(stability_value)`: the integer displayed (before appending `%`) in
the stability column. -/
def displayedStability (sigma_value : ℚ) : ℤ := pyRound (stability_value sigma_value)

theorem pyRound_lower (q : ℚ) : ⌊q⌋ ≤ pyRound q := by
  unfold pyRound
  split_ifs <;> omega

theorem pyRound_upper (q : ℚ) : pyRound q ≤ ⌊q⌋ + 1 := by
  unfold pyRound
  split_ifs <;> omega

/-- Round-half-to-even is (weakly) monotone. -/
theorem pyRound_mono {q r : ℚ} (h : q ≤ r) : pyRound q ≤ pyRound r := by
  have hfl : ⌊q⌋ ≤ ⌊r⌋ := Int.floor_le_floor h
  rcases lt_or_eq_of_le hfl with hlt | heq
  · calc pyRound q ≤ ⌊q⌋ + 1 := pyRound_upper q
      _ ≤ ⌊r⌋ := by omega
      _ ≤ pyRound r := pyRound_lower r
  · have hqr : q - (⌊q⌋ : ℚ) ≤ r - ⌊q⌋ := by linarith
    unfold pyRound
    rw [← heq]
    split_ifs <;> push_neg at * <;> first | omega | linarith

/-- For a nonzero `sigma` the stability value simplifies to `150 / sigma`. -/
theorem stability_value_eq (sigma_value : ℚ) (h : sigma_value ≠ 0) :
    stability_value sigma_value = 150 / sigma_value := by
  unfold stability_value min_sigma
  field_simp
  ring

/-- The unrounded stability value is strictly decreasing on positive `sigma`. -/
theorem stability_value_strictAnti (s1 s2 : ℚ) (h1 : 0 < s1) (h12 : s1 < s2) :
    stability_value s2 < stability_value s1 := by
  have h2 : 0 < s2 := lt_trans h1 h12
  rw [stability_value_eq s1 (ne_of_gt h1), stability_value_eq s2 (ne_of_gt h2),
    div_lt_div_iff₀ h2 h1]
  nlinarith

/-- **C3, counterexample.** The skill score is computed with `int(mu * 25)`,
which truncates: at `mu = 25.95` the code stores `648` while
`round(mu * 25) = 649`. -/
theorem C3_counterexample_score_not_rounded :
    openskillScore (519/20) ≠ pyRound ((519/20 : ℚ) * 25) := by
  unfold openskillScore pyInt pyRound
  norm_num

/-- **C3, amended.** The skill score equals `int(mu * 25)` — `mu * 25`
truncated toward zero (the floor, for the nonnegative `mu` values of the
rating model) — not `round(mu * 25)` rounded to the nearest integer. -/
theorem C3_score_truncates (mu_value : ℚ) (h : 0 ≤ mu_value) :
    openskillScore mu_value = ⌊mu_value * 25⌋ := by
  unfold openskillScore pyInt
  rw [if_pos (by positivity : (0 : ℚ) ≤ mu_value * 25)]

theorem C3_score_truncates_witness :
    (0 : ℚ) ≤ 519/20 ∧ openskillScore (519/20) = ⌊(519/20 : ℚ) * 25⌋ :=
  ⟨by norm_num, C3_score_truncates (519/20) (by norm_num)⟩

/-- **C6, counterexample.** The displayed Stability% is the rounded value and
is not strictly decreasing in `sigma`: `sigma = 70` and `sigma = 75` are both
positive, `70 < 75`, yet both display `2`. -/
theorem C6_counterexample_not_strictly_decreasing :
    (0 : ℚ) < 70 ∧ (70 : ℚ) < 75 ∧ displayedStability 75 = displayedStability 70 := by
  refine ⟨by norm_num, by norm_num, ?_⟩
  unfold displayedStability stability_value min_sigma pyRound
  norm_num

/-- **C6, amended.** The displayed Stability% equals
`round((1/sigma) / (1/1.5) * 100)` with the fixed constant `min_sigma = 1.5`:
it is exactly `100` at `sigma = 1.5` and exactly `50` at `sigma = 3.0`; the
unrounded stability value is strictly decreasing in `sigma` (so the displayed
integer is weakly decreasing, though not strictly because of rounding); and it
is not clamped to `[0, 100]` — at `sigma = 1 < 1.5` it exceeds `100`. -/
theorem C6_stability_display (s1 s2 : ℚ) (h1 : 0 < s1) (h12 : s1 < s2) :
    displayedStability (3/2) = 100 ∧ displayedStability 3 = 50 ∧
      (stability_value s2 < stability_value s1 ∧
        displayedStability s2 ≤ displayedStability s1) ∧
      100 < displayedStability 1 := by
  refine ⟨?_, ?_, ⟨stability_value_strictAnti s1 s2 h1 h12,
    pyRound_mono (le_of_lt (stability_value_strictAnti s1 s2 h1 h12))⟩, ?_⟩
  · unfold displayedStability stability_value min_sigma pyRound
    norm_num
  · unfold displayedStability stability_value min_sigma pyRound
    norm_num
  · unfold displayedStability stability_value min_sigma pyRound
    norm_num

theorem C6_stability_display_witness :
    (0 : ℚ) < 2 ∧ (2 : ℚ) < 4 ∧
      (displayedStability (3/2) = 100 ∧ displayedStability 3 = 50 ∧
        (stability_value 4 < stability_value 2 ∧
          displayedStability 4 ≤ displayedStability 2) ∧
        100 < displayedStability 1) :=
  ⟨by norm_num, by norm_num, C6_stability_display 2 4 (by norm_num) (by norm_num)⟩

/-! ## `src/match_parser.py` — `MatchParser.parse_and_store`

A match element of the JSON payload: its `id` field (`match.get("id")`, absent
= `none`; the Python falsy test `not api_id` also rejects the value `0`), its
`utcDate` field (`match.get("utcDate", "")`), and the rest of the element,
opaque to the parser (serialized by `json.dumps`). -/

structure MatchJson where
  id : Option Int
  utcDate : Option String
  payload : String
deriving DecidableEq

/-- A row of the SQLite table `matches (api_id INTEGER PRIMARY KEY,
utc_date TEXT, json_data TEXT)`. -/
structure MatchRow where
  api_id : Int
  utc_date : String
  json_data : MatchJson
deriving DecidableEq

/-- Whether the table already holds a row with the given primary key. -/
def hasApiId (db : List MatchRow) (i : Int) : Bool := db.any fun r => r.api_id == i

/-- Number of rows with the given `api_id`. -/
def countId (db : List MatchRow) (i : Int) : Nat := db.countP fun r => r.api_id == i

/-- `INSERT OR IGNORE INTO matches ...` followed by `cur.rowcount`: a no-op
(rowcount `0`) when the primary key exists, an insertion (rowcount `1`)
otherwise. -/
def insertOrIgnore (db : List MatchRow) (r : MatchRow) : List MatchRow × Nat :=
  if hasApiId db r.api_id then (db, 0) else (db ++ [r], 1)

/-- One iteration of the `for match in matches` loop of `parse_and_store`:
skip when `api_id` is missing or falsy (`not api_id`), skip when `utcDate` is
missing or empty (`not utc_date`), otherwise `INSERT OR IGNORE` and add the
rowcount to the `inserted` counter. -/
def processOne (acc : List MatchRow × Nat) (m : MatchJson) : List MatchRow × Nat :=
  match m.id with
  | none => acc
  | some i =>
    if i = 0 then acc
    else
      let utc_date := m.utcDate.getD ""
      if utc_date = "" then acc
      else
        let p := insertOrIgnore acc.1 ⟨i, utc_date, m⟩
        (p.1, acc.2 + p.2)

/-- `MatchParser.parse_and_store` on an already-parsed `matches` array `ms`:
returns the final table together with the `inserted` count. -/
def parse_and_store (db : List MatchRow) (ms : List MatchJson) :
    List MatchRow × Nat :=
  ms.foldl processOne (db, 0)

theorem hasApiId_iff_countId_pos (db : List MatchRow) (i : Int) :
    hasApiId db i = true ↔ 0 < countId db i := by
  induction db with
  | nil => simp [hasApiId, countId]
  | cons r rest ih =>
    by_cases h : r.api_id = i <;>
      simp [hasApiId, countId, List.countP_cons, h, ← ih, hasApiId]

theorem countId_append (db1 db2 : List MatchRow) (i : Int) :
    countId (db1 ++ db2) i = countId db1 i + countId db2 i :=
  List.countP_append _ _ _

theorem hasApiId_append_single (db : List MatchRow) (r : MatchRow) (i : Int) :
    hasApiId (db ++ [r]) i = (hasApiId db i || (r.api_id == i)) := by
  simp [hasApiId, List.any_append]

theorem countId_append_single (db : List MatchRow) (r : MatchRow) (i : Int) :
    countId (db ++ [r]) i = countId db i + (if r.api_id = i then 1 else 0) := by
  by_cases hr : r.api_id = i <;> simp [countId, List.countP_append, List.countP_cons, hr]

theorem hasApiId_processOne (acc : List MatchRow × Nat) (m : MatchJson) (i : Int)
    (h : hasApiId acc.1 i = true) : hasApiId (processOne acc m).1 i = true := by
  unfold processOne
  cases m.id with
  | none => exact h
  | some j =>
    by_cases hj : j = 0
    · simp only [if_pos hj]
      exact h
    · by_cases hd : m.utcDate.getD "" = ""
      · simp only [if_neg hj, if_pos hd]
        exact h
      · simp only [if_neg hj, if_neg hd]
        unfold insertOrIgnore
        by_cases hh : hasApiId acc.1 j
        · rw [if_pos hh]
          exact h
        · rw [if_neg hh]
          show hasApiId (acc.1 ++ [⟨j, m.utcDate.getD "", m⟩]) i = true
          rw [hasApiId_append_single, h, Bool.true_or]

theorem countId_processOne_le (acc : List MatchRow × Nat) (m : MatchJson)
    (h : ∀ j, countId acc.1 j ≤ 1) : ∀ j, countId (processOne acc m).1 j ≤ 1 := by
  intro j
  unfold processOne
  cases m.id with
  | none => exact h j
  | some i =>
    by_cases hi : i = 0
    · simp only [if_pos hi]
      exact h j
    · by_cases hd : m.utcDate.getD "" = ""
      · simp only [if_neg hi, if_pos hd]
        exact h j
      · simp only [if_neg hi, if_neg hd]
        unfold insertOrIgnore
        by_cases hh : hasApiId acc.1 i
        · rw [if_pos hh]
          exact h j
        · rw [if_neg hh]
          show countId (acc.1 ++ [⟨i, m.utcDate.getD "", m⟩]) j ≤ 1
          rw [countId_append_single]
          by_cases hji : i = j
          · subst hji
            have h0 : countId acc.1 i = 0 := by
              by_contra hc
              exact hh ((hasApiId_iff_countId_pos acc.1 i).mpr (Nat.pos_of_ne_zero hc))
            simp [h0]
          · simp only [show (⟨i, m.utcDate.getD "", m⟩ : MatchRow).api_id = i from rfl,
              if_neg hji, Nat.add_zero]
            exact h j

theorem foldl_processOne_hasId (ms : List MatchJson) :
    ∀ (acc : List MatchRow × Nat) (i : Int), hasApiId acc.1 i = true →
      hasApiId (ms.foldl processOne acc).1 i = true := by
  induction ms with
  | nil => intro acc i h; exact h
  | cons a tail ih => intro acc i h; exact ih _ i (hasApiId_processOne acc a i h)

theorem processOne_valid_hasId (acc : List MatchRow × Nat) (m : MatchJson) (i : Int)
    (hid : m.id = some i) (hi : i ≠ 0) (hd : m.utcDate.getD "" ≠ "") :
    hasApiId (processOne acc m).1 i = true := by
  unfold processOne
  rw [hid]
  simp only [if_neg hi, if_neg hd]
  unfold insertOrIgnore
  by_cases hh : hasApiId acc.1 i
  · rw [if_pos hh]
    exact hh
  · rw [if_neg hh]
    show hasApiId (acc.1 ++ [⟨i, m.utcDate.getD "", m⟩]) i = true
    rw [hasApiId_append_single]
    simp

theorem foldl_processOne_contains (ms : List MatchJson) :
    ∀ (acc : List MatchRow × Nat), ∀ m ∈ ms, ∀ i : Int,
      m.id = some i → i ≠ 0 → m.utcDate.getD "" ≠ "" →
      hasApiId (ms.foldl processOne acc).1 i = true := by
  induction ms with
  | nil =>
    intro acc m hm
    cases hm
  | cons a tail ih =>
    intro acc m hm i hid hi hd
    rcases List.mem_cons.mp hm with rfl | hmem
    · exact foldl_processOne_hasId tail _ i (processOne_valid_hasId acc m i hid hi hd)
    · exact ih (processOne acc a) m hmem i hid hi hd

theorem foldl_processOne_noop (ms : List MatchJson) :
    ∀ (db : List MatchRow) (n : Nat),
      (∀ m ∈ ms, ∀ i : Int, m.id = some i → i ≠ 0 → m.utcDate.getD "" ≠ "" →
        hasApiId db i = true) →
      ms.foldl processOne (db, n) = (db, n) := by
  induction ms with
  | nil => intro db n _; rfl
  | cons a tail ih =>
    intro db n h
    have hstep : processOne (db, n) a = (db, n) := by
      unfold processOne
      cases hid : a.id with
      | none => rfl
      | some i =>
        by_cases hi : i = 0
        · simp only [if_pos hi]
        · by_cases hd : a.utcDate.getD "" = ""
          · simp only [if_neg hi, if_pos hd]
          · simp only [if_neg hi, if_neg hd]
            have hh := h a (List.mem_cons_self a tail) i hid hi hd
            show ((insertOrIgnore db ⟨i, a.utcDate.getD "", a⟩).1,
              n + (insertOrIgnore db ⟨i, a.utcDate.getD "", a⟩).2) = (db, n)
            unfold insertOrIgnore
            rw [if_pos hh]
            rfl
    rw [List.foldl_cons, hstep]
    exact ih db n fun m hm => h m (List.mem_cons_of_mem a hm)

theorem countId_processOne_zero (acc : List MatchRow × Nat) (m : MatchJson) :
    countId (processOne acc m).1 0 = countId acc.1 0 := by
  unfold processOne
  cases m.id with
  | none => rfl
  | some i =>
    by_cases hi : i = 0
    · simp only [if_pos hi]
    · by_cases hd : m.utcDate.getD "" = ""
      · simp only [if_neg hi, if_pos hd]
      · simp only [if_neg hi, if_neg hd]
        unfold insertOrIgnore
        by_cases hh : hasApiId acc.1 i
        · rw [if_pos hh]
        · rw [if_neg hh]
          show countId (acc.1 ++ [⟨i, m.utcDate.getD "", m⟩]) 0 = countId acc.1 0
          rw [countId_append_single, if_neg, Nat.add_zero]
          exact hi

theorem foldl_processOne_countId_zero (ms : List MatchJson) :
    ∀ acc : List MatchRow × Nat,
      countId (ms.foldl processOne acc).1 0 = countId acc.1 0 := by
  induction ms with
  | nil => intro acc; rfl
  | cons a tail ih =>
    intro acc
    rw [List.foldl_cons, ih, countId_processOne_zero]

theorem foldl_processOne_countId_le (ms : List MatchJson) :
    ∀ acc : List MatchRow × Nat, (∀ j, countId acc.1 j ≤ 1) →
      ∀ j, countId (ms.foldl processOne acc).1 j ≤ 1 := by
  induction ms with
  | nil => intro acc h; exact h
  | cons a tail ih => intro acc h; exact ih _ (countId_processOne_le acc a h)

/-- **C5.** Inserting a match whose external id already exists is a skipped
no-op: parsing the same payload twice (here from an empty store) leaves exactly
one stored row with that id, the second call returns the store unchanged with
an inserted count of `0`, so in particular it does not count that match. -/
theorem C5_parse_and_store_idempotent (ms : List MatchJson) (m : MatchJson) (i : Int)
    (d : String) (hm : m ∈ ms) (hid : m.id = some i) (hi : i ≠ 0)
    (hd : m.utcDate = some d) (hd0 : d ≠ "") :
    countId (parse_and_store [] ms).1 i = 1 ∧
      (parse_and_store (parse_and_store [] ms).1 ms).1 = (parse_and_store [] ms).1 ∧
      (parse_and_store (parse_and_store [] ms).1 ms).2 = 0 ∧
      countId (parse_and_store (parse_and_store [] ms).1 ms).1 i = 1 := by
  have hdd : m.utcDate.getD "" ≠ "" := by
    rw [hd]
    exact hd0
  have hfirst : hasApiId (parse_and_store [] ms).1 i = true :=
    foldl_processOne_contains ms ([], 0) m hm i hid hi hdd
  have hle : ∀ j, countId (parse_and_store [] ms).1 j ≤ 1 := by
    apply foldl_processOne_countId_le
    intro j
    simp [countId]
  have hone : countId (parse_and_store [] ms).1 i = 1 := by
    have hpos := (hasApiId_iff_countId_pos _ _).mp hfirst
    have := hle i
    omega
  have hnoop : parse_and_store (parse_and_store [] ms).1 ms =
      ((parse_and_store [] ms).1, 0) := by
    apply foldl_processOne_noop
    intro m' hm' i' hid' hi' hd'
    exact foldl_processOne_contains ms ([], 0) m' hm' i' hid' hi' hd'
  refine ⟨hone, ?_, ?_, ?_⟩
  · rw [hnoop]
  · rw [hnoop]
  · rw [hnoop]
    exact hone

theorem C5_parse_and_store_idempotent_witness :
    ((⟨some 537862, some "2025-10-18T11:30:00Z", "m1"⟩ : MatchJson)
        ∈ [(⟨some 537862, some "2025-10-18T11:30:00Z", "m1"⟩ : MatchJson)]) ∧
      ((some 537862 : Option Int) = some 537862) ∧ ((537862 : Int) ≠ 0) ∧
      ((some "2025-10-18T11:30:00Z" : Option String) = some "2025-10-18T11:30:00Z") ∧
      ("2025-10-18T11:30:00Z" ≠ "") ∧
      (let ms := [(⟨some 537862, some "2025-10-18T11:30:00Z", "m1"⟩ : MatchJson)]
       countId (parse_and_store [] ms).1 537862 = 1 ∧
         (parse_and_store (parse_and_store [] ms).1 ms).1 = (parse_and_store [] ms).1 ∧
         (parse_and_store (parse_and_store [] ms).1 ms).2 = 0 ∧
         countId (parse_and_store (parse_and_store [] ms).1 ms).1 537862 = 1) :=
  ⟨by decide, rfl, by decide, rfl, by decide,
    C5_parse_and_store_idempotent [⟨some 537862, some "2025-10-18T11:30:00Z", "m1"⟩]
      ⟨some 537862, some "2025-10-18T11:30:00Z", "m1"⟩ 537862 "2025-10-18T11:30:00Z"
      (by decide) rfl (by decide) rfl (by decide)⟩

/-- **C10.** `parse_and_store` silently skips (stores nothing for, and does not
count) every match element whose `id` is missing or `0` (Python's falsy test)
and every element whose `utcDate` is missing or empty; in particular no row
with `api_id = 0` is ever added to the store. -/
theorem C10_parse_and_store_skips_falsy (acc : List MatchRow × Nat) (m : MatchJson)
    (db : List MatchRow) (ms : List MatchJson) :
    ((m.id = none ∨ m.id = some 0) → processOne acc m = acc) ∧
      ((m.utcDate = none ∨ m.utcDate = some "") → processOne acc m = acc) ∧
      countId (parse_and_store db ms).1 0 = countId db 0 := by
  refine ⟨?_, ?_, foldl_processOne_countId_zero ms (db, 0)⟩
  · rintro (h | h) <;> unfold processOne <;> rw [h]
    rfl
  · intro h
    unfold processOne
    cases hid : m.id with
    | none => rfl
    | some i =>
      have hd : m.utcDate.getD "" = "" := by
        rcases h with h | h <;> rw [h] <;> rfl
      by_cases hi : i = 0
      · simp only [if_pos hi]
      · simp only [if_neg hi, if_pos hd]

theorem C10_parse_and_store_skips_falsy_witness :
    processOne ([], 0) ⟨some 0, some "2025-10-18T11:30:00Z", "m0"⟩ = ([], 0) ∧
      processOne ([], 0) ⟨some 537862, none, "m1"⟩ = ([], 0) ∧
      countId (parse_and_store [] [⟨some 0, some "2025-10-18T11:30:00Z", "m0"⟩]).1 0
        = countId [] 0 :=
  ⟨(C10_parse_and_store_skips_falsy ([], 0) ⟨some 0, some "2025-10-18T11:30:00Z", "m0"⟩
      [] []).1 (Or.inr rfl),
    (C10_parse_and_store_skips_falsy ([], 0) ⟨some 537862, none, "m1"⟩ [] []).2.1
      (Or.inl rfl),
    (C10_parse_and_store_skips_falsy ([], 0) ⟨some 0, some "2025-10-18T11:30:00Z", "m0"⟩
      [] [⟨some 0, some "2025-10-18T11:30:00Z", "m0"⟩]).2.2⟩

/-! ## `src/match_data.py` — `MatchDataManager.get_matches` and its mock fallback

A match record handled by `MatchDataManager` is a Python dict from column
names to string or integer values. -/

inductive FieldValue where
  | str (s : String)
  | int (n : Int)
deriving DecidableEq

/-- One row/dict of match data. -/
abbrev MockRow : Type := List (String × FieldValue)

/-- Build one dict of `_generate_mock_data`, with the fields in source order. -/
def mkMockRow (div date ht at_ : String) (fthg ftag hthg htag : Int)
    (ftr referee : String) : MockRow :=
  [("Div", .str div), ("Date", .str date), ("HomeTeam", .str ht), ("AwayTeam", .str at_),
   ("FTHG", .int fthg), ("FTAG", .int ftag), ("HTHG", .int hthg), ("HTAG", .int htag),
   ("FTR", .str ftr), ("Referee", .str referee)]

/-- `MatchDataManager._generate_mock_data`: the five Premier League dicts
followed by the two La Liga dicts. -/
def mock_data : List MockRow :=
  [mkMockRow "E0" "2023-08-12" "Arsenal" "Crystal Palace" 2 0 1 0 "H" "M Oliver",
   mkMockRow "E0" "2023-08-13" "Chelsea" "Liverpool" 1 2 0 1 "A" "A Taylor",
   mkMockRow "E0" "2023-08-13" "Man City" "Burnley" 3 0 2 0 "H" "P Tierney",
   mkMockRow "E0" "2023-08-14" "Man United" "Wolves" 1 0 1 0 "H" "S Attwell",
   mkMockRow "E0" "2023-08-14" "Tottenham" "Brentford" 2 2 1 1 "D" "R Jones",
   mkMockRow "SP1" "2023-08-11" "Barcelona" "Getafe" 4 0 2 0 "H" "J Sánchez",
   mkMockRow "SP1" "2023-08-12" "Real Madrid" "Almería" 2 0 1 0 "H" "A Mateu"]

/-- A Python exception escaping the modelled code. -/
inductive PyError where
  | typeError
deriving DecidableEq

/-- Python sort key `x.get("Date", "")` (all `Date` values in this data are
strings; a missing key sorts as `""`). -/
def dateKey (row : MockRow) : String :=
  match dictLookup row "Date" with
  | some (FieldValue.str s) => s
  | _ => ""

/-- Lexicographic comparison of character lists by Unicode code point — the
order Python uses on `str`. -/
def charListLe : List Char → List Char → Bool
  | [], _ => true
  | _ :: _, [] => false
  | a :: as_, b :: bs =>
    if a.toNat < b.toNat then true
    else if b.toNat < a.toNat then false
    else charListLe as_ bs

/-- Python string comparison `a <= b` (code-point lexicographic). -/
def strLe (a b : String) : Bool := charListLe a.data b.data

/-- Stable insertion into a date-sorted list (earlier elements stay first on
equal keys), modelling Python's stable `list.sort`. -/
def insertByDate (r : MockRow) : List MockRow → List MockRow
  | [] => [r]
  | x :: xs => if strLe (dateKey r) (dateKey x) then r :: x :: xs else x :: insertByDate r xs

/-- `rows.sort(key=lambda x: x.get("Date", ""))`: a stable sort by date. -/
def sortByDate : List MockRow → List MockRow
  | [] => []
  | r :: rest => insertByDate r (sortByDate rest)

/-- Python slice `rows[:limit]`: the whole list for `limit=None`. -/
def takeOpt (limit : Option Nat) (rows : List MockRow) : List MockRow :=
  match limit with
  | none => rows
  | some n => rows.take n

/-- Whether a row satisfies every `(key, value)` filter, as in
`if match.get(key) != value: ... break` (a missing key never equals a filter
value). -/
def rowMeetsFilters (filters : List (String × FieldValue)) (row : MockRow) : Bool :=
  filters.all fun kv => dictLookup row kv.1 == some kv.2

/-- The `for match in self.mock_data` accumulation loop of `_filter_mock_data`:
after appending a row it evaluates `len(filtered_matches) >= limit`, which for
`limit=None` raises `TypeError` in Python 3. -/
def filterLoop (filters : List (String × FieldValue)) (limit : Option Nat) :
    List MockRow → List MockRow → Except PyError (List MockRow)
  | [], filtered => .ok filtered
  | r :: rest, filtered =>
    if rowMeetsFilters filters r then
      match limit with
      | none => .error .typeError
      | some n =>
        if n ≤ (filtered ++ [r]).length then .ok (filtered ++ [r])
        else filterLoop filters limit rest (filtered ++ [r])
    else filterLoop filters limit rest filtered

/-- `MatchDataManager._filter_mock_data(filters, limit)`: with no filters,
slice the mock data; otherwise run the accumulation loop; finally sort the
result by date. -/
def filter_mock_data (mock : List MockRow) (filters : List (String × FieldValue))
    (limit : Option Nat) : Except PyError (List MockRow) :=
  if filters.isEmpty then .ok (sortByDate (takeOpt limit mock))
  else (filterLoop filters limit mock []).map sortByDate

/-- Outcome of the SQLite query attempted by `get_matches` when a connection
is held: either the fetched rows or a raised exception. -/
inductive QueryOutcome where
  | ok (rows : List MockRow)
  | raised
deriving DecidableEq

/-- `MatchDataManager.get_matches(filters, limit)`: with no live connection the
mock fallback is used; with a connection, a raising query also falls back to
the mock data, a successful but empty query falls back as well, and a
successful non-empty query returns its rows sorted by date. -/
def get_matches (connected : Bool) (q : QueryOutcome) (mock : List MockRow)
    (filters : List (String × FieldValue)) (limit : Option Nat) :
    Except PyError (List MockRow) :=
  if connected then
    match q with
    | .ok rows =>
      if rows.isEmpty then filter_mock_data mock filters limit
      else .ok (sortByDate rows)
    | .raised => filter_mock_data mock filters limit
  else filter_mock_data mock filters limit

instance exceptDecEq {ε α : Type} [DecidableEq ε] [DecidableEq α] :
    DecidableEq (Except ε α) := fun a b =>
  match a, b with
  | .error e, .error f =>
    if h : e = f then isTrue (by rw [h]) else isFalse fun hc => h (by injection hc)
  | .ok x, .ok y =>
    if h : x = y then isTrue (by rw [h]) else isFalse fun hc => h (by injection hc)
  | .error _, .ok _ => isFalse fun hc => Except.noConfusion hc
  | .ok _, .error _ => isFalse fun hc => Except.noConfusion hc

/-- **C2, counterexample.** With the storage unreachable (no live connection),
no filters and no limit, `get_matches` does not return an empty result set: it
returns the seven built-in mock rows. -/
theorem C2_counterexample_not_empty_on_unreachable :
    get_matches false QueryOutcome.raised mock_data [] none
      ≠ Except.ok ([] : List MockRow) := by
  decide

/-- **C2, amended.** When the underlying storage is unreachable — the manager
holds no live connection, or the query raises — `get_matches` does not raise
to the caller but falls back to `_filter_mock_data` over the built-in mock
dataset, returning the mock rows matching the filters (all seven, sorted by
date, when no filter is given) rather than an empty result set; the only
exception is the fallback's own `TypeError` when a filter matches and
`limit=None`. -/
theorem C2_get_matches_mock_fallback :
    (∀ (q : QueryOutcome) (filters : List (String × FieldValue)) (limit : Option Nat),
        get_matches false q mock_data filters limit
          = filter_mock_data mock_data filters limit) ∧
      (∀ (filters : List (String × FieldValue)) (limit : Option Nat),
        get_matches true QueryOutcome.raised mock_data filters limit
          = filter_mock_data mock_data filters limit) ∧
      (∃ rows : List MockRow, filter_mock_data mock_data [] none = Except.ok rows ∧
        rows.length = 7) ∧
      get_matches false QueryOutcome.raised mock_data [("Div", FieldValue.str "E0")] none
        = Except.error PyError.typeError := by
  refine ⟨fun q filters limit => rfl, fun filters limit => rfl, ⟨sortByDate mock_data, rfl, by decide⟩, by decide⟩

/-! ## `src/league_mapper.py`, `src/team.py`, `src/team_manager.py` — team registry -/

/-- `LEAGUE_MAP` from `league_mapper.py`. -/
def LEAGUE_MAP : List (String × String) := [("英超", "E0"), ("西甲", "SP1"), ("德甲", "D1")]

/-- `get_league_code(chinese_name)`: `LEAGUE_MAP.get(chinese_name)`, `none`
when no mapping exists. -/
def get_league_code (chinese_name : String) : Option String :=
  dictLookup LEAGUE_MAP chinese_name

/-- A `Team` object (`team.py`): numeric ratings modelled over `ℚ`, the
`league` attribute is a league code or Python `None`. -/
structure Team where
  name : String
  elo : ℚ
  mu : ℚ
  sigma : ℚ
  match_count : Nat
  league : Option String
deriving DecidableEq

/-- The state of a `TeamManager` (`team_manager.py`): the `_teams` dict keyed
by team name. -/
structure TeamManager where
  teams : List (String × Team)

/-- `TeamManager.get_all_teams()`: `list(self._teams.values())`. -/
def get_all_teams (mgr : TeamManager) : List Team := mgr.teams.map Prod.snd

/-- Modelled from the spec: `TeamManager.get_teams_by_league` is called by
`main_window.py` and exercised by `test_league_teams.py`, but its definition is
missing from `src/team_manager.py`; per the spec it "resolves a human-readable
league name to an internal league code via an external League Mapper
collaborator, then filters all registered teams by matching `league` code". -/
def get_teams_by_league (mgr : TeamManager) (league_name : String) : List Team :=
  let code := get_league_code league_name
  (get_all_teams mgr).filter fun t => t.league == code

/-- **C4.** `get_teams_by_league` resolves the human-readable league name
through the League Mapper collaborator (`get_league_code`, which maps 英超,
西甲, 德甲 to `E0`, `SP1`, `D1`) and returns exactly the registered teams whose
`league` attribute equals the resolved code. -/
theorem C4_get_teams_by_league_filters (mgr : TeamManager) (league_name : String)
    (t : Team) :
    (t ∈ get_teams_by_league mgr league_name ↔
        t ∈ get_all_teams mgr ∧ t.league = get_league_code league_name) ∧
      get_league_code "英超" = some "E0" ∧ get_league_code "西甲" = some "SP1" ∧
      get_league_code "德甲" = some "D1" := by
  refine ⟨?_, rfl, rfl, rfl⟩
  simp [get_teams_by_league, List.mem_filter]

/-! ## `src/fetch_worker.py` — `FetchWorker` -/

/-- An HTTP response as observed by `FetchWorker.run`. -/
structure FetchResponse where
  status_code : Nat
  headers : List (String × String)
  text : String
deriving DecidableEq

/-- The Qt signals a `FetchWorker` can emit. -/
inductive FetchSignal where
  | progress (msg : String)
  | error_signal (msg : String)
  | data_ready
  | finished
deriving DecidableEq

/-- The retry configuration installed in `FetchWorker.__init__`. -/
structure RetryConfig where
  total : Nat
  status_forcelist : List Nat
  allowed_methods : List String
  backoff_factor : Nat
deriving DecidableEq

/-- `Retry(total=3, status_forcelist=[429, 500, 502, 503, 504],
allowed_methods=["GET"], backoff_factor=1)`. -/
def retry_strategy : RetryConfig := ⟨3, [429, 500, 502, 503, 504], ["GET"], 1⟩

/-- What `self.session.get(...)` delivered to `run` after the mounted retry
adapter acted: a response, or one of the caught exception families. Which of
these cases can actually occur is governed by `session_get` below — in
particular a response whose status is in the retry forcelist never reaches
`run`. -/
inductive RequestOutcome where
  | response (r : FetchResponse)
  | timeout (msg : String)
  | connection_error (msg : String)
  | json_decode_error (msg : String)
  | request_exception (msg : String)
deriving DecidableEq

/-- `response.headers.get(key, "未知")`. -/
def headers_get (headers : List (String × String)) (k dflt : String) : String :=
  (dictLookup headers k).getD dflt

/-- The status-code dispatch of `FetchWorker.run` on a received response: the
explicit `403` and `429` branches, then `raise_for_status()` (whose
`HTTPError` is caught and reported below in `run`), then the success path.
The `429` branch is written in the source (fetch_worker.py lines 77-85) but is
unreachable through `session_get`, because the retry adapter raises before a
forcelisted status is ever returned — proved in the C7 theorem below. -/
def run_response (r : FetchResponse) : List FetchSignal :=
  if r.status_code = 403 then
    [.error_signal "权限错误(403): API密钥没有足够权限访问此资源"]
  else if r.status_code = 429 then
    [.error_signal ("请求频率限制(429): 剩余请求: "
      ++ headers_get r.headers "X-Requests-Available-Minute" "未知"
      ++ "/分钟，重置时间: "
      ++ headers_get r.headers "X-RequestCounter-Reset" "未知" ++ "秒")]
  else if 400 ≤ r.status_code then
    [.error_signal ("HTTP错误: " ++ toString r.status_code)]
  else
    [.progress "解析响应...", .data_ready]

/-- The outcome-dependent middle part of `run`: every caught exception family
is reported through `error_signal` and never escapes. -/
def run_body : RequestOutcome → List FetchSignal
  | .response r => run_response r
  | .timeout m => [.error_signal ("请求超时: " ++ m)]
  | .connection_error m => [.error_signal ("连接错误: " ++ m)]
  | .json_decode_error m => [.error_signal ("JSON解析错误: " ++ m)]
  | .request_exception m => [.error_signal ("请求失败: " ++ m)]

/-- `FetchWorker.run`, as the sequence of signals it emits for a given request
outcome: the two progress signals, the outcome-dependent part, and the
`finally` block's `finished` signal, always last (wall-clock timings
interpolated into some messages are not modelled; the dynamic parts of each
message are). -/
def run (outcome : RequestOutcome) : List FetchSignal :=
  ([FetchSignal.progress "准备请求...", FetchSignal.progress "发送请求..."] ++
    run_body outcome) ++ [FetchSignal.finished]

/-- urllib3 `Retry` handling of a `status_forcelist` status with
`raise_on_status=True` (the default, not overridden in `FetchWorker.__init__`):
while retry budget remains, the request is re-issued; once the budget is
exhausted on a forcelisted status, `MaxRetryError(ResponseError("too many
<status> error responses"))` is raised, which `requests` surfaces as
`RetryError`, a `RequestException` — the response object, and with it its
headers, is discarded. A non-forcelisted status is returned as the response.
`server n` is the response the server would give to the `n`-th request. -/
def retryStatusLoop (forcelist : List Nat) (server : Nat → FetchResponse) :
    Nat → Nat → RequestOutcome
  | attempt, 0 =>
    if (server attempt).status_code ∈ forcelist then
      .request_exception ("too many " ++ toString (server attempt).status_code
        ++ " error responses")
    else .response (server attempt)
  | attempt, budget + 1 =>
    if (server attempt).status_code ∈ forcelist then
      retryStatusLoop forcelist server (attempt + 1) budget
    else .response (server attempt)

/-- `self.session.get(...)` with the adapter mounted in `FetchWorker.__init__`:
the retry loop at the configured budget (`total = 3` retries after the initial
request). -/
def session_get (cfg : RetryConfig) (server : Nat → FetchResponse) : RequestOutcome :=
  retryStatusLoop cfg.status_forcelist server 0 cfg.total

/-- A server that answers every attempt with HTTP 429 and the given headers. -/
def storm429 (headers : List (String × String)) : Nat → FetchResponse :=
  fun _ => ⟨429, headers, "rate limited"⟩

/-- The rate-limit hint headers of the failing input. -/
def hint_headers : List (String × String) :=
  [("X-Requests-Available-Minute", "0"), ("X-RequestCounter-Reset", "42")]

/-- A response that comes back out of the retry loop has a status outside the
forcelist. -/
theorem retryStatusLoop_response_not_mem (forcelist : List Nat)
    (server : Nat → FetchResponse) :
    ∀ (budget attempt : Nat) (r : FetchResponse),
      retryStatusLoop forcelist server attempt budget = RequestOutcome.response r →
      r.status_code ∉ forcelist := by
  intro budget
  induction budget with
  | zero =>
    intro attempt r h
    simp only [retryStatusLoop] at h
    by_cases hf : (server attempt).status_code ∈ forcelist
    · rw [if_pos hf] at h
      exact RequestOutcome.noConfusion h
    · rw [if_neg hf] at h
      injection h with h2
      rw [← h2]
      exact hf
  | succ b ih =>
    intro attempt r h
    simp only [retryStatusLoop] at h
    by_cases hf : (server attempt).status_code ∈ forcelist
    · rw [if_pos hf] at h
      exact ih (attempt + 1) r h
    · rw [if_neg hf] at h
      injection h with h2
      rw [← h2]
      exact hf

/-- A request whose first answer is not forcelisted returns that answer. -/
theorem retryStatusLoop_not_forcelisted (forcelist : List Nat)
    (server : Nat → FetchResponse) (attempt budget : Nat)
    (h : (server attempt).status_code ∉ forcelist) :
    retryStatusLoop forcelist server attempt budget
      = RequestOutcome.response (server attempt) := by
  cases budget with
  | zero => simp only [retryStatusLoop, if_neg h]
  | succ b => simp only [retryStatusLoop, if_neg h]

/-- **C7.** (The claim is the code's own evident intent — the explicit 429
branch of `run` builds exactly the hinted message — but the retry
configuration defeats it.) At the failing input, a server answering every
attempt with HTTP 429 carrying the quota and reset headers: the retry budget
(`total = 3`, `429` in the forcelist) is exhausted and `session_get` raises
instead of returning the response, `run` reports through the generic
request-exception branch without any header hint — its signals are identical
whether or not the hint headers are present — and no response with a
forcelisted status (in particular no 429) can ever reach `run`. The 403 half
of the claim does hold: `403` is not forcelisted, the response is returned,
and `run` reports the permission failure without retrying and without
raising. -/
theorem C7_retry_swallows_429_hints :
    session_get retry_strategy (storm429 hint_headers)
        = RequestOutcome.request_exception "too many 429 error responses" ∧
      run (session_get retry_strategy (storm429 hint_headers))
        = [FetchSignal.progress "准备请求...", FetchSignal.progress "发送请求...",
           FetchSignal.error_signal "请求失败: too many 429 error responses",
           FetchSignal.finished] ∧
      (∀ hs hs2 : List (String × String),
        run (session_get retry_strategy (storm429 hs))
          = run (session_get retry_strategy (storm429 hs2))) ∧
      (∀ (server : Nat → FetchResponse) (r : FetchResponse),
        session_get retry_strategy server = RequestOutcome.response r →
          r.status_code ∉ retry_strategy.status_forcelist ∧ r.status_code ≠ 429) ∧
      (∀ server : Nat → FetchResponse, (server 0).status_code = 403 →
        session_get retry_strategy server = RequestOutcome.response (server 0) ∧
          run (RequestOutcome.response (server 0))
            = [FetchSignal.progress "准备请求...", FetchSignal.progress "发送请求...",
               FetchSignal.error_signal "权限错误(403): API密钥没有足够权限访问此资源",
               FetchSignal.finished]) := by
  refine ⟨rfl, rfl, fun hs hs2 => rfl, ?_, ?_⟩
  · intro server r h
    have hnot := retryStatusLoop_response_not_mem retry_strategy.status_forcelist
      server retry_strategy.total 0 r h
    refine ⟨hnot, fun hc => hnot ?_⟩
    rw [hc]
    decide
  · intro server h403
    have hnot : (server 0).status_code ∉ retry_strategy.status_forcelist := by
      rw [h403]
      decide
    refine ⟨retryStatusLoop_not_forcelisted _ server 0 retry_strategy.total hnot, ?_⟩
    simp only [run, run_body, run_response]
    rw [if_pos h403]
    rfl

theorem C7_retry_swallows_429_hints_witness :
    (((200 : Nat) ∉ retry_strategy.status_forcelist ∧ (200 : Nat) ≠ 429) ∧
        session_get retry_strategy (fun _ => ⟨403, [], "forbidden"⟩)
          = RequestOutcome.response ⟨403, [], "forbidden"⟩ ∧
        run (RequestOutcome.response ⟨403, [], "forbidden"⟩)
          = [FetchSignal.progress "准备请求...", FetchSignal.progress "发送请求...",
             FetchSignal.error_signal "权限错误(403): API密钥没有足够权限访问此资源",
             FetchSignal.finished]) ∧
      run (session_get retry_strategy (storm429 hint_headers))
        = run (session_get retry_strategy (storm429 [])) :=
  ⟨⟨C7_retry_swallows_429_hints.2.2.2.1 (fun _ => ⟨200, [], "ok"⟩) ⟨200, [], "ok"⟩ rfl,
      C7_retry_swallows_429_hints.2.2.2.2 (fun _ => ⟨403, [], "forbidden"⟩) rfl⟩,
    C7_retry_swallows_429_hints.2.2.1 hint_headers []⟩

end FootballRank
